import Mathlib

/-!
Verification of the lint-orchestration core vendored under
`vendor/github.com/golangci/golangci-lint` (pkg/lint/load.go, the config
defaults, and the govet linter adapter).

The Go code is embedded shallowly: pure helpers become Lean functions; the
external collaborators (`os`, `path/filepath`, `os/exec`, the
`golang.org/x/tools/go/loader` package, the `packages` resolver, the
`astcache` package and the govet API, none of which are part of the
analysed sources) are modelled as oracle fields of a `World` record, so
that every function of the embedding stays a pure, executable function of
its inputs and the oracle.  Fallible Go calls (`value, err` pairs) become
`Except String`.
-/

namespace Aquarium

/-- Model of `loader.PackageInfo`: a type-checked package together with its
list of compile errors.  Only the identity of the package and whether
`len(info.Errors) != 0` matter to the embedded code, so errors are kept as
plain strings. -/
structure PackageInfo where
  name : String
  errors : List String
deriving DecidableEq, Repr

/-- Model of `loader.Program`: the packages created from the file set
(`Created`, a slice) and the import-resolved packages (`Imported`, a Go
map modelled as an association list; the list order stands for one Go map
iteration order, which Go leaves unspecified). A Go `nil` slice/map is
modelled by the empty list: the `!= nil` guards in the source are no-ops
under this model because ranging over an empty collection does nothing. -/
structure LoaderProgram where
  created : List PackageInfo
  imported : List (String × PackageInfo)
deriving DecidableEq, Repr

/-- Model of `go/build.Context`: only the compiler root is relevant here. -/
structure BuildContext where
  goroot : String
deriving DecidableEq, Repr

/-- Model of the `go/parser` mode constant used by the loader config. -/
inductive ParserMode where
  | parseComments
deriving DecidableEq, Repr

/-- Model of `loader.Config` as constructed in `loadWholeAppIfNeeded`:
build context, error tolerance and parse mode. -/
structure LoaderConfig where
  build : BuildContext
  allowErrors : Bool
  parserMode : ParserMode
deriving DecidableEq, Repr

/-- Model of `ssa.Program`: opaque artifact produced by the external
`ssautil.CreateProgram` + `Build()` pair; only its presence matters. -/
structure SSAProgram where
  tag : Nat
deriving DecidableEq, Repr

/-- Model of `astcache.Cache`: opaque artifact produced by the external
astcache package; only which constructor produced it matters. -/
structure AstCache where
  tag : Nat
deriving DecidableEq, Repr

/-- Model of one package of `packages.Program`: `pkg.Files(includeTests)`
is a function of the analyze-tests flag. -/
structure Package where
  name : String
  files : Bool → List String

/-- Model of `packages.Program` (the resolver output): build context,
resolved directories, `Files(analyzeTests)` and the package list. -/
structure PkgProgram where
  buildContext : BuildContext
  dirs : List String
  files : Bool → List String
  packages : List Package

/-- Modelled from the spec: `linter.Config` (pkg/lint/linter is not under
the analysed sources) is the `AnalyzerDescriptor` of the spec; the methods
`NeedsProgramLoading()` and `NeedsSSARepresentation()` are its capability
flags `needsFullLoad` and `needsDataflowRepr`. -/
structure LinterConfig where
  name : String
  needsProgramLoading : Bool
  needsSSARepresentation : Bool
deriving DecidableEq, Repr

/-- Subset of `config.Run` (source part_000) used by the embedded code. -/
structure RunConfig where
  args : List String
  buildTags : List String
  analyzeTests : Bool
  skipDirs : List String

/-- Subset of `config.LintersSettings.Govet` (source part_000). -/
structure GovetSettings where
  checkShadowing : Bool

/-- Subset of `config.LintersSettings` (source part_000). -/
structure LintersSettings where
  govet : GovetSettings

/-- Subset of `config.Config` (source part_000) used by the embedded code. -/
structure Config where
  run : RunConfig
  lintersSettings : LintersSettings

/-- Model of a `token.Position` as carried by govet issues. -/
structure Pos where
  filename : String
  line : Nat
  column : Nat
deriving DecidableEq, Repr

/-- Model of `govetAPI.Issue`: position and message. -/
structure GovetIssue where
  pos : Pos
  message : String
deriving DecidableEq, Repr

/-- Model of `result.Issue`: position, text and owning linter. -/
structure Issue where
  pos : Pos
  text : String
  fromLinter : String
deriving DecidableEq, Repr

/-- `packages.Resolver.Resolve`: from CLI args to a resolved program. -/
abbrev Resolver := List String → Except String PkgProgram

/-- Oracle record for the external collaborators of the embedded code.
Each field models one external call: `os.Getenv("GOROOT")`, running
`go env GOROOT`, `os.Getwd`, `filepath.Rel`, `packages.NewResolver` /
`Resolve`, `loader.Config.FromArgs` (returning the unhandled rest),
`loader.Config.Load` (a function of the normalized arguments and the
analyze-tests flag, the data `FromArgs` stored in the config),
`ssautil.CreateProgram`, `astcache.LoadFromProgram`,
`astcache.LoadFromFiles`, `packages.StdExcludeDirRegexps` and
`govetAPI.Run`. -/
structure World where
  getenvGoroot : String
  goEnvGoroot : Except String String
  getwd : Except String String
  rel : String → String → Except String String
  newResolver : List String → List String → Except String Resolver
  fromArgs : List String → Bool → Except String (List String)
  load : List String → Bool → Except String LoaderProgram
  createSSA : LoaderProgram → SSAProgram
  loadFromProgram : LoaderProgram → Except String AstCache
  loadFromFiles : List String → Except String AstCache
  stdExcludeDirRegexps : List String
  govetRun : List String → Bool → Except String (List GovetIssue)

/-- `isFullImportNeeded` (load.go:24-32): true iff some enabled linter
needs program loading.  The Go loop with early `return true` is exactly
`List.any`. -/
def isFullImportNeeded (linters : List LinterConfig) : Bool :=
  linters.any (fun l => l.needsProgramLoading)

/-- `isSSAReprNeeded` (load.go:34-42): true iff some enabled linter needs
the SSA representation. -/
def isSSAReprNeeded (linters : List LinterConfig) : Bool :=
  linters.any (fun l => l.needsSSARepresentation)

/-- Model of `filepath.IsAbs` on Unix: the path starts with a slash
(expressed over the character list so that it evaluates by `rfl`). -/
def isAbs (p : String) : Bool :=
  match p.data with
  | '/' :: _ => true
  | _ => false

/-- The body of the loop of `normalizePaths` (load.go:51-62) for one path:
an absolute path is replaced by its path relative to the root (failing
with the wrapped `filepath.Rel` error), then `"./"` is prepended. -/
def normalizePath1 (w : World) (root p : String) : Except String String :=
  if isAbs p then
    match w.rel root p with
    | .error err =>
        .error ("can\x27t get relative path for path " ++ p ++ " and root "
          ++ root ++ ": " ++ err)
    | .ok relPath => .ok ("./" ++ relPath)
  else
    .ok ("./" ++ p)

/-- The loop of `normalizePaths` (load.go:50-62), given the working
directory: results are accumulated in input order and the first failing
path aborts the whole call. -/
def normalizePathsFrom (w : World) (root : String) : List String → Except String (List String)
  | [] => .ok []
  | p :: rest =>
    match normalizePath1 w root p with
    | .error e => .error e
    | .ok q =>
      match normalizePathsFrom w root rest with
      | .error e => .error e
      | .ok qs => .ok (q :: qs)

/-- `normalizePaths` (load.go:44-65): gets the working directory (failing
with a wrapped error when `os.Getwd` fails), then normalizes every path. -/
def normalizePaths (w : World) (paths : List String) : Except String (List String) :=
  match w.getwd with
  | .error err => .error ("can\x27t get working dir: " ++ err)
  | .ok root => normalizePathsFrom w root paths

/-- `buildSSAProgram` (load.go:113-122): builds the SSA representation via
the external `ssautil.CreateProgram` / `Build` (timing log elided). -/
def buildSSAProgram (w : World) (lprog : LoaderProgram) : SSAProgram :=
  w.createSSA lprog

/-- `loadWholeAppIfNeeded` (load.go:67-111): returns `(nil, nil, nil)`
when no linter needs full import; otherwise builds the loader config
(error-tolerant, comment-preserving), picks dirs if any were resolved and
the file list otherwise, normalizes the arguments, runs `FromArgs`
(rejecting unhandled rest paths) and `Load`.  The misspelling
`parepare` is the source's. -/
def loadWholeAppIfNeeded (w : World) (linters : List LinterConfig) (cfg : RunConfig)
    (pkgProg : PkgProgram) : Except String (Option LoaderProgram × Option LoaderConfig) :=
  if !isFullImportNeeded linters then
    .ok (none, none)
  else
    let bctx := pkgProg.buildContext
    let loadcfg : LoaderConfig :=
      { build := bctx, allowErrors := true, parserMode := .parseComments }
    let loaderArgs :=
      if pkgProg.dirs.length != 0 then pkgProg.dirs
      else pkgProg.files cfg.analyzeTests
    match normalizePaths w loaderArgs with
    | .error e => .error e
    | .ok nLoaderArgs =>
      match w.fromArgs nLoaderArgs cfg.analyzeTests with
      | .error e => .error ("can\x27t parepare load config with paths: " ++ e)
      | .ok rest =>
        if rest.length > 0 then
          .error ("unhandled loading paths: " ++ toString rest)
        else
          match w.load nLoaderArgs cfg.analyzeTests with
          | .error e =>
              .error ("can\x27t load program from paths " ++ toString loaderArgs
                ++ ": " ++ e)
          | .ok prog => .ok (some prog, some loadcfg)

/-- `discoverGoRoot` (load.go:124-136): the `GOROOT` environment variable
when non-empty, otherwise the whitespace-trimmed output of
`go env GOROOT` (failing with a wrapped error when the command fails).
Go's `strings.TrimSpace` is modelled by `String.trim`. -/
def discoverGoRoot (w : World) : Except String String :=
  if w.getenvGoroot != "" then
    .ok w.getenvGoroot
  else
    match w.goEnvGoroot with
    | .error e => .error ("can\x27t execute go env GOROOT: " ++ e)
    | .ok output => .ok output.trim

/-- Model of `linter.Context` as populated by `LoadContext`
(load.go:214-221): Go nil pointers for the optional artifacts become
`Option`. -/
structure LintContext where
  pkgProgram : PkgProgram
  cfg : Config
  program : Option LoaderProgram
  ssaProgram : Option SSAProgram
  loaderConfig : Option LoaderConfig
  astCache : AstCache
  notCompilingPackages : List PackageInfo

/-- `separateNotCompilingPackages` (load.go:141-164): packages of
`prog.Created` with at least one compile error are appended, in order, to
`NotCompilingPackages` and dropped from `Created`; packages of
`prog.Imported` with at least one compile error are appended to
`NotCompilingPackages` and deleted from the map.  The two Go loops are
filters in iteration order.  The `none` branch is unreachable from the
call site, which guards on `prog != nil`. -/
def separateNotCompilingPackages (lintCtx : LintContext) : LintContext :=
  match lintCtx.program with
  | none => lintCtx
  | some prog =>
    let compilingCreated := prog.created.filter (fun info => info.errors.length == 0)
    let notCompiling1 := lintCtx.notCompilingPackages
      ++ prog.created.filter (fun info => info.errors.length != 0)
    let notCompiling2 := notCompiling1
      ++ (prog.imported.map Prod.snd).filter (fun info => info.errors.length != 0)
    let imported2 := prog.imported.filter (fun kv => kv.2.errors.length == 0)
    { lintCtx with
        program := some { created := compilingCreated, imported := imported2 },
        notCompilingPackages := notCompiling2 }

/-- The outcome of `LoadContext`: the built `linter.Context` together with
the recorded process-global side effects `os.Setenv("GOROOT", goroot)` and
`build.Default.GOROOT = goroot` (load.go:174-175). -/
structure LoadOutcome where
  envGoroot : String
  buildDefaultGoroot : String
  lintCtx : LintContext

/-- `LoadContext` (load.go:166-228): discovers GOROOT (failing early with
a wrapped error), records the two GOROOT side effects, defaults the
arguments to `./...`, resolves targets with the standard skip dirs plus
the configured ones, conditionally loads the whole app, conditionally
builds the SSA representation (only when a program was loaded and some
linter needs it), builds the AST cache from the loaded program when
present and from the resolved files otherwise, and finally partitions
not-compiling packages when a program was loaded. -/
def LoadContext (w : World) (linters : List LinterConfig) (cfg : Config) :
    Except String LoadOutcome :=
  match discoverGoRoot w with
  | .error e => .error ("can\x27t discover GOROOT: " ++ e)
  | .ok goroot =>
    let args := if cfg.run.args.length == 0 then ["./..."] else cfg.run.args
    let skipDirs := w.stdExcludeDirRegexps ++ cfg.run.skipDirs
    match w.newResolver cfg.run.buildTags skipDirs with
    | .error e => .error e
    | .ok r =>
      match r args with
      | .error e => .error e
      | .ok pkgProg =>
        match loadWholeAppIfNeeded w linters cfg.run pkgProg with
        | .error e => .error e
        | .ok (prog, loaderConfig) =>
          let ssaProg : Option SSAProgram :=
            match prog with
            | some p =>
              if isSSAReprNeeded linters then some (buildSSAProgram w p) else none
            | none => none
          let astCacheE : Except String AstCache :=
            match prog with
            | some p => w.loadFromProgram p
            | none => w.loadFromFiles (pkgProg.files cfg.run.analyzeTests)
          match astCacheE with
          | .error e => .error e
          | .ok astCache =>
            let ret : LintContext :=
              { pkgProgram := pkgProg, cfg := cfg, program := prog,
                ssaProgram := ssaProg, loaderConfig := loaderConfig,
                astCache := astCache, notCompilingPackages := [] }
            let ret2 := if prog.isSome then separateNotCompilingPackages ret else ret
            .ok { envGoroot := goroot, buildDefaultGoroot := goroot, lintCtx := ret2 }

/-- Model of `config.ExcludePattern` (source part_000).  The `Why` field
is documentation only (per the design notes it never influences behavior)
and is left out of the model. -/
structure ExcludePattern where
  pattern : String
  linter : String
deriving DecidableEq, Repr

/-- `DefaultExcludePatterns` (source part_000): the built-in default
exclusion list, patterns and owning linters verbatim. -/
def DefaultExcludePatterns : List ExcludePattern :=
  [ { pattern := "Error return value of .((os\\.)?std(out|err)\\..*|.*Close|.*Flush|os\\.Remove(All)?|.*printf?|os\\.(Un)?Setenv). is not checked",
      linter := "errcheck" },
    { pattern := "(comment on exported (method|function)|should have( a package)? comment|comment should be of the form)",
      linter := "golint" },
    { pattern := "func name will be used as test\\.Test.* by other packages, and that stutters; consider calling this",
      linter := "golint" },
    { pattern := "Use of unsafe calls should be audited",
      linter := "gas" },
    { pattern := "Subprocess launch(ed with variable|ing should be audited)",
      linter := "gas" },
    { pattern := "G104",
      linter := "gas" },
    { pattern := "(Expect directory permissions to be 0750 or less|Expect file permissions to be 0600 or less)",
      linter := "gas" },
    { pattern := "Potential file inclusion via variable",
      linter := "gas" },
    { pattern := "(possible misuse of unsafe.Pointer|should have signature)",
      linter := "govet" },
    { pattern := "ineffective break statement. Did you mean to break out of the outer loop",
      linter := "megacheck" } ]

/-- `GetDefaultExcludePatternsStrings` (source part_000): the pattern
strings of the default exclusion list, in order (the Go append loop is a
map). -/
def GetDefaultExcludePatternsStrings : List String :=
  DefaultExcludePatterns.map (fun p => p.pattern)

/-- Modelled from the spec and Go's `regexp.Compile` (standard library,
external to the analysed sources): whether an escape `\c` is a valid
escape sequence.  The set is conservative — everything accepted here is
accepted by Go's RE2 syntax. -/
def escOk (c : Char) : Bool :=
  c = '.' || c = '\\' || c = '(' || c = ')' || c = '|' ||
  c = '*' || c = '+' || c = '?' || c = '^' || c = '$' ||
  c = 'd' || c = 'w' || c = 's'

/-- Modelled from the spec and Go's `regexp.Compile`: a conservative
syntactic validity check for regular expressions.  The state is the open
parenthesis depth and whether the previous token was a repeatable atom.
A pattern accepted by this check is accepted by Go's RE2 syntax: escapes
are restricted to `escOk`, parentheses must balance, a repetition
operator must follow an atom or a closed group and never another
repetition operator, and character classes and counted repetitions are
(conservatively) rejected outright. -/
def reValidAux : List Char → Nat → Bool → Bool
  | [], depth, _ => depth == 0
  | ['\\'], _, _ => false
  | '\\' :: e :: rest, depth, _ => escOk e && reValidAux rest depth true
  | '(' :: rest, depth, _ => reValidAux rest (depth + 1) false
  | ')' :: rest, depth, _ => depth != 0 && reValidAux rest (depth - 1) true
  | '|' :: rest, depth, _ => reValidAux rest depth false
  | '*' :: rest, depth, prevAtom => prevAtom && reValidAux rest depth false
  | '+' :: rest, depth, prevAtom => prevAtom && reValidAux rest depth false
  | '?' :: rest, depth, prevAtom => prevAtom && reValidAux rest depth false
  | '[' :: _, _, _ => false
  | ']' :: _, _, _ => false
  | c :: rest, depth, _ =>
    c != '\x7b' && c != '\x7d' && reValidAux rest depth true

/-- Modelled from the spec: the pattern-must-compile invariant checker, a
conservative model of `regexp.Compile` succeeding. -/
def reValid (s : String) : Bool :=
  reValidAux s.toList 0 false

namespace Govet

/-- `Govet.Name` (source part_001). -/
def Name : String := "govet"

/-- The package loop of `Govet.Run` (source part_001, lines 209-216):
runs the govet API on every package of the resolved program in order,
accumulating issues; the first failing package aborts the whole call with
its error, discarding everything collected so far. -/
def collect (w : World) (analyzeTests checkShadowing : Bool) :
    List Package → Except String (List GovetIssue)
  | [] => .ok []
  | pkg :: rest =>
    match w.govetRun (pkg.files analyzeTests) checkShadowing with
    | .error e => .error e
    | .ok issues =>
      match collect w analyzeTests checkShadowing rest with
      | .error e => .error e
      | .ok more => .ok (issues ++ more)

/-- `Govet.Run` (source part_001, lines 207-230): collects govet issues
over all packages, returns `(nil, nil)` when the total is zero, and maps
issues to `result.Issue` with the govet linter name otherwise. -/
def Run (w : World) (lintCtx : LintContext) : Except String (List Issue) :=
  match collect w lintCtx.cfg.run.analyzeTests
      lintCtx.cfg.lintersSettings.govet.checkShadowing
      lintCtx.pkgProgram.packages with
  | .error e => .error e
  | .ok govetIssues =>
    if govetIssues.length == 0 then .ok []
    else .ok (govetIssues.map (fun i =>
      { pos := i.pos, text := i.message, fromLinter := Name }))

end Govet

/-! ## Theorems -/

/-- C2: for every list of analyzer configurations, `isFullImportNeeded`
returns true iff at least one analyzer declares that it needs program
loading, and `isSSAReprNeeded` returns true iff at least one analyzer
declares that it needs the SSA representation; both are pure functions of
the analyzer list (they are Lean functions of the list alone, with no
world argument). -/
theorem c2_capability_query (linters : List LinterConfig) :
    (isFullImportNeeded linters = true ↔
      ∃ l ∈ linters, l.needsProgramLoading = true) ∧
    (isSSAReprNeeded linters = true ↔
      ∃ l ∈ linters, l.needsSSARepresentation = true) := by
  constructor <;>
    simp [isFullImportNeeded, isSSAReprNeeded, List.any_eq_true]

/-- C8: every pattern string of the built-in default exclusion list
passes the (conservative) regular-expression validity check, so compiling
the default exclusion rules cannot raise a pattern-compilation error. -/
theorem c8_default_patterns_compile :
    GetDefaultExcludePatternsStrings.all reValid = true := by
  decide

/-- C1: after `separateNotCompilingPackages` runs on a freshly loaded
context (empty side list), every package with at least one compile error
appears in `NotCompilingPackages` and in neither the created list nor the
imported map, while every package with zero compile errors stays in its
original compiling collection and off the side list. -/
theorem c1_partition_health (ctx : LintContext) (prog : LoaderProgram)
    (hprog : ctx.program = some prog) (hstart : ctx.notCompilingPackages = [])
    (info : PackageInfo) :
    ∃ prog2, (separateNotCompilingPackages ctx).program = some prog2 ∧
      (info.errors ≠ [] →
        ((info ∈ prog.created ∨ info ∈ prog.imported.map Prod.snd) →
          info ∈ (separateNotCompilingPackages ctx).notCompilingPackages) ∧
        info ∉ prog2.created ∧ info ∉ prog2.imported.map Prod.snd) ∧
      (info.errors = [] →
        (info ∈ prog.created → info ∈ prog2.created) ∧
        (∀ k, (k, info) ∈ prog.imported → (k, info) ∈ prog2.imported) ∧
        info ∉ (separateNotCompilingPackages ctx).notCompilingPackages) := by
  have hsep : (separateNotCompilingPackages ctx).notCompilingPackages =
      ctx.notCompilingPackages
        ++ prog.created.filter (fun i => i.errors.length != 0)
        ++ (prog.imported.map Prod.snd).filter (fun i => i.errors.length != 0) := by
    simp [separateNotCompilingPackages, hprog]
  refine ⟨{ created := prog.created.filter (fun info => info.errors.length == 0),
            imported := prog.imported.filter (fun kv => kv.2.errors.length == 0) },
          by simp [separateNotCompilingPackages, hprog], ?_, ?_⟩
  · intro herr
    have hlen : (info.errors.length == 0) = false := by
      simpa using List.length_eq_zero.not.mpr herr
    have hlen2 : (info.errors.length != 0) = true := by simp [bne, hlen]
    refine ⟨?_, ?_, ?_⟩
    · intro hmem
      rw [hsep, hstart]
      simp only [List.nil_append, List.mem_append]
      rcases hmem with h | h
      · exact Or.inl (List.mem_filter.mpr ⟨h, hlen2⟩)
      · exact Or.inr (List.mem_filter.mpr ⟨h, hlen2⟩)
    · intro h
      have := (List.mem_filter.mp h).2
      rw [hlen] at this
      exact Bool.false_ne_true this
    · intro h
      obtain ⟨kv, hkv, hsnd⟩ := List.mem_map.mp h
      have := (List.mem_filter.mp hkv).2
      rw [hsnd, hlen] at this
      exact Bool.false_ne_true this
  · intro herr
    have hlen : (info.errors.length == 0) = true := by simp [herr]
    refine ⟨?_, ?_, ?_⟩
    · intro hmem
      exact List.mem_filter.mpr ⟨hmem, hlen⟩
    · intro k hmem
      exact List.mem_filter.mpr ⟨hmem, hlen⟩
    · rw [hsep, hstart]
      simp only [List.nil_append, List.mem_append, List.mem_filter]
      rintro (⟨-, hb⟩ | ⟨-, hb⟩) <;> simp [bne, hlen] at hb

/-- C9: `separateNotCompilingPackages` neither drops nor duplicates
packages — the created list, the values of the imported map and the side
list together form, after partitioning, a permutation of what they were
before — the surviving created packages keep their relative order (the new
created list is a sublist of the old one), and the side list only grows
(the old side list is a prefix of the new one). -/
theorem c9_partition_conservation (ctx : LintContext) (prog : LoaderProgram)
    (hprog : ctx.program = some prog) :
    ∃ prog2, (separateNotCompilingPackages ctx).program = some prog2 ∧
      List.Perm
        (prog2.created ++ prog2.imported.map Prod.snd
          ++ (separateNotCompilingPackages ctx).notCompilingPackages)
        (prog.created ++ prog.imported.map Prod.snd ++ ctx.notCompilingPackages) ∧
      List.Sublist prog2.created prog.created ∧
      ∃ t, (separateNotCompilingPackages ctx).notCompilingPackages =
        ctx.notCompilingPackages ++ t := by
  have hsep : (separateNotCompilingPackages ctx).notCompilingPackages =
      ctx.notCompilingPackages
        ++ prog.created.filter (fun i => i.errors.length != 0)
        ++ (prog.imported.map Prod.snd).filter (fun i => i.errors.length != 0) := by
    simp [separateNotCompilingPackages, hprog]
  refine ⟨{ created := prog.created.filter (fun info => info.errors.length == 0),
            imported := prog.imported.filter (fun kv => kv.2.errors.length == 0) },
          by simp [separateNotCompilingPackages, hprog], ?_, List.filter_sublist _,
          ⟨_, by rw [hsep, List.append_assoc]⟩⟩
  have hcomm : (fun kv : String × PackageInfo => kv.2.errors.length == 0) =
      ((fun i : PackageInfo => i.errors.length == 0) ∘ Prod.snd) := rfl
  rw [hsep, hcomm, ← List.filter_map, List.perm_iff_count]
  intro a
  have h1 := (List.filter_append_perm (fun i : PackageInfo => i.errors.length == 0)
    prog.created).count_eq a
  have h2 := (List.filter_append_perm (fun i : PackageInfo => i.errors.length == 0)
    (prog.imported.map Prod.snd)).count_eq a
  simp only [List.count_append, bne] at h1 h2 ⊢
  omega

/-- Whether a fallible call returned an error. -/
def isError {α : Type} : Except String α → Bool
  | .error _ => true
  | .ok _ => false

theorem normalizePath1_isError (w : World) (root p : String) :
    isError (normalizePath1 w root p) = true ↔
      (isAbs p = true ∧ isError (w.rel root p) = true) := by
  unfold normalizePath1
  cases habs : isAbs p
  · simp [isError, habs]
  · cases hrel : w.rel root p <;> simp [isError, habs, hrel]

theorem normalizePath1_ok (w : World) (root p q : String)
    (h : normalizePath1 w root p = .ok q) :
    (isAbs p = false → q = "./" ++ p) ∧
    (∀ r, isAbs p = true → w.rel root p = .ok r → q = "./" ++ r) := by
  unfold normalizePath1 at h
  cases habs : isAbs p
  · rw [habs, if_neg Bool.false_ne_true] at h
    cases h
    exact ⟨fun _ => rfl, fun r hc => (Bool.false_ne_true hc).elim⟩
  · rw [habs, if_pos rfl] at h
    cases hrel : w.rel root p with
    | error e => rw [hrel] at h; cases h
    | ok r0 =>
      rw [hrel] at h
      cases h
      refine ⟨fun hc => ?_, fun r _ hr => ?_⟩
      · exact (Bool.false_ne_true hc.symm).elim
      · cases hr
        rfl

theorem normalizePathsFrom_isError (w : World) (root : String) (ps : List String) :
    isError (normalizePathsFrom w root ps) = true ↔
      ∃ p ∈ ps, isAbs p = true ∧ isError (w.rel root p) = true := by
  induction ps with
  | nil => simp [normalizePathsFrom, isError]
  | cons p rest ih =>
    simp only [normalizePathsFrom]
    cases h1 : normalizePath1 w root p with
    | error e =>
      have hp := (normalizePath1_isError w root p).mp (by rw [h1]; rfl)
      constructor
      · intro _
        exact ⟨p, List.mem_cons_self p rest, hp⟩
      · intro _
        rfl
    | ok q =>
      have hp : ¬(isAbs p = true ∧ isError (w.rel root p) = true) := by
        intro hc
        have hx := (normalizePath1_isError w root p).mpr hc
        rw [h1] at hx
        exact (Bool.false_ne_true hx).elim
      cases h2 : normalizePathsFrom w root rest with
      | error e =>
        rw [h2] at ih
        constructor
        · intro _
          obtain ⟨x, hx, hc⟩ := ih.mp rfl
          exact ⟨x, List.mem_cons_of_mem p hx, hc⟩
        · intro _
          rfl
      | ok qs =>
        rw [h2] at ih
        constructor
        · intro hc
          exact (Bool.false_ne_true hc).elim
        · rintro ⟨x, hx, hc⟩
          rcases List.mem_cons.mp hx with rfl | hx2
          · exact absurd hc hp
          · exact (Bool.false_ne_true (ih.mpr ⟨x, hx2, hc⟩)).elim

theorem normalizePathsFrom_ok_spec (w : World) (root : String) :
    ∀ (ps out : List String), normalizePathsFrom w root ps = .ok out →
      out.length = ps.length ∧
      ∀ i (h1 : i < ps.length) (h2 : i < out.length),
        (isAbs (ps.get ⟨i, h1⟩) = false →
          out.get ⟨i, h2⟩ = "./" ++ ps.get ⟨i, h1⟩) ∧
        (∀ r, isAbs (ps.get ⟨i, h1⟩) = true →
          w.rel root (ps.get ⟨i, h1⟩) = .ok r → out.get ⟨i, h2⟩ = "./" ++ r) := by
  intro ps
  induction ps with
  | nil =>
    intro out h
    simp only [normalizePathsFrom] at h
    cases h
    simp
  | cons p rest ih =>
    intro out h
    simp only [normalizePathsFrom] at h
    cases h1 : normalizePath1 w root p with
    | error e => rw [h1] at h; cases h
    | ok q =>
      rw [h1] at h
      cases h2 : normalizePathsFrom w root rest with
      | error e => rw [h2] at h; cases h
      | ok qs =>
        rw [h2] at h
        cases h
        obtain ⟨hlen, hpt⟩ := ih qs h2
        refine ⟨by simp [hlen], ?_⟩
        intro i hi1 hi2
        cases i with
        | zero => exact normalizePath1_ok w root p q h1
        | succ j =>
          simp only [List.length_cons, Nat.succ_lt_succ_iff] at hi1 hi2
          exact hpt j hi1 hi2

/-- C6: `normalizePaths` fails (with an error value, never a crash)
exactly when the working directory cannot be determined or some absolute
input path cannot be made relative to it; on success it returns one
output per input, in input order, each prefixed with `./`, where an
absolute input is replaced by its path relative to the working directory
and a relative input is kept as is. -/
theorem c6_normalizePaths (w : World) (paths : List String) :
    (isError (normalizePaths w paths) = true ↔
      (isError w.getwd = true ∨
        ∃ root, w.getwd = .ok root ∧
          ∃ p ∈ paths, isAbs p = true ∧ isError (w.rel root p) = true)) ∧
    (∀ root out, w.getwd = .ok root → normalizePaths w paths = .ok out →
      out.length = paths.length ∧
      ∀ i (h1 : i < paths.length) (h2 : i < out.length),
        (isAbs (paths.get ⟨i, h1⟩) = false →
          out.get ⟨i, h2⟩ = "./" ++ paths.get ⟨i, h1⟩) ∧
        (∀ r, isAbs (paths.get ⟨i, h1⟩) = true →
          w.rel root (paths.get ⟨i, h1⟩) = .ok r →
          out.get ⟨i, h2⟩ = "./" ++ r)) := by
  constructor
  · unfold normalizePaths
    cases hwd : w.getwd with
    | error e =>
      constructor
      · intro _
        exact Or.inl rfl
      · intro _
        rfl
    | ok root =>
      rw [normalizePathsFrom_isError w root paths]
      constructor
      · intro hx
        exact Or.inr ⟨root, rfl, hx⟩
      · rintro (hc | ⟨root2, hr2, hx⟩)
        · exact (Bool.false_ne_true hc).elim
        · cases hr2
          exact hx
  · intro root out hwd h
    unfold normalizePaths at h
    rw [hwd] at h
    exact normalizePathsFrom_ok_spec w root paths out h

theorem loadWholeAppIfNeeded_not_needed (w : World) (linters : List LinterConfig)
    (cfg : RunConfig) (pkgProg : PkgProgram) (h : isFullImportNeeded linters = false) :
    loadWholeAppIfNeeded w linters cfg pkgProg = .ok (none, none) := by
  simp [loadWholeAppIfNeeded, h]

theorem separate_preserves (ctx : LintContext) :
    (separateNotCompilingPackages ctx).pkgProgram = ctx.pkgProgram ∧
    (separateNotCompilingPackages ctx).cfg = ctx.cfg ∧
    (separateNotCompilingPackages ctx).ssaProgram = ctx.ssaProgram ∧
    (separateNotCompilingPackages ctx).loaderConfig = ctx.loaderConfig ∧
    (separateNotCompilingPackages ctx).astCache = ctx.astCache ∧
    (separateNotCompilingPackages ctx).program.isSome = ctx.program.isSome := by
  cases hp : ctx.program <;> simp [separateNotCompilingPackages, hp]

theorem LoadContext_ok_inv (w : World) (linters : List LinterConfig) (cfg : Config)
    (out : LoadOutcome) (h : LoadContext w linters cfg = .ok out) :
    ∃ goroot pkgProg prog loaderConfig astCache,
      discoverGoRoot w = .ok goroot ∧
      out.envGoroot = goroot ∧
      out.buildDefaultGoroot = goroot ∧
      loadWholeAppIfNeeded w linters cfg.run pkgProg = .ok (prog, loaderConfig) ∧
      (prog = none → w.loadFromFiles (pkgProg.files cfg.run.analyzeTests) = .ok astCache) ∧
      (∀ p, prog = some p → w.loadFromProgram p = .ok astCache) ∧
      out.lintCtx =
        (let ret : LintContext :=
          { pkgProgram := pkgProg, cfg := cfg, program := prog,
            ssaProgram :=
              match prog with
              | some p =>
                if isSSAReprNeeded linters then some (buildSSAProgram w p) else none
              | none => none,
            loaderConfig := loaderConfig, astCache := astCache,
            notCompilingPackages := [] }
         if prog.isSome then separateNotCompilingPackages ret else ret) := by
  unfold LoadContext at h
  cases hg : discoverGoRoot w with
  | error e => simp only [hg] at h; cases h
  | ok goroot =>
    simp only [hg] at h
    cases hnr : w.newResolver cfg.run.buildTags (w.stdExcludeDirRegexps ++ cfg.run.skipDirs) with
    | error e => simp only [hnr] at h; cases h
    | ok r =>
      simp only [hnr] at h
      cases hres : r (if cfg.run.args.length == 0 then ["./..."] else cfg.run.args) with
      | error e => simp only [hres] at h; cases h
      | ok pkgProg =>
        simp only [hres] at h
        cases hload : loadWholeAppIfNeeded w linters cfg.run pkgProg with
        | error e => simp only [hload] at h; cases h
        | ok pair =>
          obtain ⟨prog, loaderConfig⟩ := pair
          simp only [hload] at h
          cases prog with
          | none =>
            cases hast : w.loadFromFiles (pkgProg.files cfg.run.analyzeTests) with
            | error e => simp only [hast] at h; cases h
            | ok astCache =>
              simp only [hast] at h
              cases h
              refine ⟨goroot, pkgProg, none, loaderConfig, astCache, rfl, rfl, rfl, hload,
                fun _ => hast, ?_, ?_⟩
              · intro p hp
                cases hp
              · simp
          | some p =>
            cases hast : w.loadFromProgram p with
            | error e => simp only [hast] at h; cases h
            | ok astCache =>
              simp only [hast] at h
              cases h
              refine ⟨goroot, pkgProg, some p, loaderConfig, astCache, rfl, rfl, rfl, hload,
                ?_, ?_, ?_⟩
              · intro hc
                cases hc
              · intro p2 hp2
                cases hp2
                exact hast
              · simp

/-- C3: when no enabled analyzer declares that it needs program loading,
`loadWholeAppIfNeeded` returns a nil program, nil loader config and nil
error without constructing any loader configuration, and consequently a
successful `LoadContext` carries no loaded program and no loader config
for the rest of the run. -/
theorem c3_loader_skipped (w : World) (linters : List LinterConfig) (cfg : Config)
    (pkgProg : PkgProgram) (h : isFullImportNeeded linters = false) :
    loadWholeAppIfNeeded w linters cfg.run pkgProg = .ok (none, none) ∧
    ∀ out, LoadContext w linters cfg = .ok out →
      out.lintCtx.program = none ∧ out.lintCtx.loaderConfig = none := by
  refine ⟨loadWholeAppIfNeeded_not_needed w linters cfg.run pkgProg h, ?_⟩
  intro out hout
  obtain ⟨goroot, pkgProg2, prog, loaderConfig, astCache, -, -, -, hload, -, -, hctx⟩ :=
    LoadContext_ok_inv w linters cfg out hout
  rw [loadWholeAppIfNeeded_not_needed w linters cfg.run pkgProg2 h] at hload
  cases hload
  simp at hctx
  rw [hctx]
  exact ⟨rfl, rfl⟩

/-- C4: in every successful run, the SSA representation is present in the
context exactly when a program was loaded and at least one analyzer
declares that it needs the SSA representation. -/
theorem c4_ssa_gating (w : World) (linters : List LinterConfig) (cfg : Config)
    (out : LoadOutcome) (h : LoadContext w linters cfg = .ok out) :
    out.lintCtx.ssaProgram.isSome = true ↔
      (out.lintCtx.program.isSome = true ∧ isSSAReprNeeded linters = true) := by
  obtain ⟨goroot, pkgProg, prog, loaderConfig, astCache, -, -, -, -, -, -, hctx⟩ :=
    LoadContext_ok_inv w linters cfg out h
  cases prog with
  | none =>
    simp at hctx
    rw [hctx]
    simp
  | some p =>
    simp only [Option.isSome_some, if_pos] at hctx
    have hpres := separate_preserves
      { pkgProgram := pkgProg, cfg := cfg, program := some p,
        ssaProgram := if isSSAReprNeeded linters then some (buildSSAProgram w p) else none,
        loaderConfig := loaderConfig, astCache := astCache, notCompilingPackages := [] }
    rw [hctx]
    simp only [hpres.2.2.1, hpres.2.2.2.2.2]
    cases hssa : isSSAReprNeeded linters <;> simp [hssa]

/-- C5: in every successful run, the AST cache of the context is derived
from the loaded program when one exists (the program handed back by
`loadWholeAppIfNeeded` together with the context's loader config), and is
parsed directly from the resolved file set selected by the analyze-tests
flag exactly when no program was loaded. -/
theorem c5_parse_cache (w : World) (linters : List LinterConfig) (cfg : Config)
    (out : LoadOutcome) (h : LoadContext w linters cfg = .ok out) :
    (out.lintCtx.program = none →
      w.loadFromFiles (out.lintCtx.pkgProgram.files cfg.run.analyzeTests) =
        .ok out.lintCtx.astCache) ∧
    (out.lintCtx.program.isSome = true →
      ∃ p, loadWholeAppIfNeeded w linters cfg.run out.lintCtx.pkgProgram =
          .ok (some p, out.lintCtx.loaderConfig) ∧
        w.loadFromProgram p = .ok out.lintCtx.astCache) := by
  obtain ⟨goroot, pkgProg, prog, loaderConfig, astCache, -, -, -, hload, hfiles, hprog, hctx⟩ :=
    LoadContext_ok_inv w linters cfg out h
  cases prog with
  | none =>
    simp at hctx
    rw [hctx]
    exact ⟨fun _ => hfiles rfl, fun hc => by simp at hc⟩
  | some p =>
    simp only [Option.isSome_some, if_pos] at hctx
    have hpres := separate_preserves
      { pkgProgram := pkgProg, cfg := cfg, program := some p,
        ssaProgram := if isSSAReprNeeded linters then some (buildSSAProgram w p) else none,
        loaderConfig := loaderConfig, astCache := astCache, notCompilingPackages := [] }
    rw [hctx]
    refine ⟨?_, ?_⟩
    · intro hc
      have hs := hpres.2.2.2.2.2
      rw [hc] at hs
      simp at hs
    · intro _
      refine ⟨p, ?_, ?_⟩
      · rw [hpres.1, hpres.2.2.2.1]
        exact hload
      · rw [hpres.2.2.2.2.1]
        exact hprog p rfl

/-- C7: the compiler root is established deterministically —
`discoverGoRoot` returns the `GOROOT` environment variable when it is
non-empty and otherwise the trimmed output of `go env GOROOT` (failing
when that command fails); `LoadContext` fails with a wrapped error when
discovery fails, and on success records the discovered value both in the
process environment variable and in the default build context. -/
theorem c7_goroot (w : World) (linters : List LinterConfig) (cfg : Config) :
    (w.getenvGoroot ≠ "" → discoverGoRoot w = .ok w.getenvGoroot) ∧
    (w.getenvGoroot = "" → ∀ outp, w.goEnvGoroot = .ok outp →
      discoverGoRoot w = .ok outp.trim) ∧
    (w.getenvGoroot = "" → ∀ e, w.goEnvGoroot = .error e →
      discoverGoRoot w = .error ("can\x27t execute go env GOROOT: " ++ e)) ∧
    (∀ e, discoverGoRoot w = .error e →
      LoadContext w linters cfg = .error ("can\x27t discover GOROOT: " ++ e)) ∧
    (∀ goroot out, discoverGoRoot w = .ok goroot → LoadContext w linters cfg = .ok out →
      out.envGoroot = goroot ∧ out.buildDefaultGoroot = goroot) := by
  refine ⟨?_, ?_, ?_, ?_, ?_⟩
  · intro hne
    simp [discoverGoRoot, bne_iff_ne, hne]
  · intro heq outp hout
    simp [discoverGoRoot, heq, hout]
  · intro heq e hout
    simp [discoverGoRoot, heq, hout]
  · intro e he
    unfold LoadContext
    rw [he]
  · intro goroot out hg hout
    obtain ⟨goroot2, pkgProg, prog, loaderConfig, astCache, hg2, henv, hbuild, -, -, -, -⟩ :=
      LoadContext_ok_inv w linters cfg out hout
    rw [hg] at hg2
    cases hg2
    exact ⟨henv, hbuild⟩

theorem govet_collect_error (w : World) (t s : Bool) (pkg : Package)
    (l2 : List Package) (e : String) :
    ∀ l1 : List Package,
      (∀ q ∈ l1, ∃ issues, w.govetRun (q.files t) s = .ok issues) →
      w.govetRun (pkg.files t) s = .error e →
      Govet.collect w t s (l1 ++ pkg :: l2) = .error e := by
  intro l1
  induction l1 with
  | nil =>
    intro _ he
    simp only [List.nil_append, Govet.collect, he]
  | cons q rest ih =>
    intro hok he
    obtain ⟨issues, hq⟩ := hok q (List.mem_cons_self q rest)
    have hrest := ih (fun x hx => hok x (List.mem_cons_of_mem q hx)) he
    simp only [List.cons_append, Govet.collect, hq, List.append_eq, hrest]

theorem govet_collect_ok_nil (w : World) (t s : Bool) :
    ∀ ps : List Package, (∀ q ∈ ps, w.govetRun (q.files t) s = .ok []) →
      Govet.collect w t s ps = .ok [] := by
  intro ps
  induction ps with
  | nil =>
    intro _
    rfl
  | cons q rest ih =>
    intro h
    have hq := h q (List.mem_cons_self q rest)
    have hrest := ih (fun x hx => h x (List.mem_cons_of_mem q hx))
    simp only [Govet.collect, hq, hrest, List.nil_append]

/-- C10: `Govet.Run` is fail-fast and all-or-nothing across packages: if
the underlying govet analysis fails on some package (every package before
it having succeeded), the whole call returns that error and no findings,
discarding everything collected from earlier packages; and when every
package succeeds with zero total issues the call returns nil findings and
nil error. -/
theorem c10_govet_all_or_nothing (w : World) (lintCtx : LintContext) :
    (∀ l1 pkg l2 e,
      lintCtx.pkgProgram.packages = l1 ++ pkg :: l2 →
      (∀ q ∈ l1, ∃ issues, w.govetRun (q.files lintCtx.cfg.run.analyzeTests)
        lintCtx.cfg.lintersSettings.govet.checkShadowing = .ok issues) →
      w.govetRun (pkg.files lintCtx.cfg.run.analyzeTests)
        lintCtx.cfg.lintersSettings.govet.checkShadowing = .error e →
      Govet.Run w lintCtx = .error e) ∧
    ((∀ q ∈ lintCtx.pkgProgram.packages,
      w.govetRun (q.files lintCtx.cfg.run.analyzeTests)
        lintCtx.cfg.lintersSettings.govet.checkShadowing = .ok []) →
      Govet.Run w lintCtx = .ok []) := by
  constructor
  · intro l1 pkg l2 e hsplit hok he
    have hc := govet_collect_error w lintCtx.cfg.run.analyzeTests
      lintCtx.cfg.lintersSettings.govet.checkShadowing pkg l2 e l1 hok he
    unfold Govet.Run
    rw [hsplit, hc]
  · intro h
    have hc := govet_collect_ok_nil w lintCtx.cfg.run.analyzeTests
      lintCtx.cfg.lintersSettings.govet.checkShadowing
      lintCtx.pkgProgram.packages h
    unfold Govet.Run
    rw [hc]
    rfl

/-! ## Concrete instances used by the witness theorems -/

/-- A concrete resolved program. -/
def samplePkgProgram : PkgProgram :=
  { buildContext := { goroot := "/goroot" },
    dirs := ["./pkg"],
    files := fun _ => ["main.go"],
    packages := [] }

/-- A concrete configuration. -/
def sampleConfig : Config :=
  { run := { args := [], buildTags := [], analyzeTests := false, skipDirs := [] },
    lintersSettings := { govet := { checkShadowing := false } } }

/-- A cleanly compiling package. -/
def samplePkgA : PackageInfo := { name := "a", errors := [] }

/-- A package with one compile error. -/
def samplePkgB : PackageInfo := { name := "b", errors := ["type error"] }

/-- A concrete loaded program holding both packages, once created and once
imported. -/
def sampleProg1 : LoaderProgram :=
  { created := [samplePkgA, samplePkgB],
    imported := [("a2", samplePkgA), ("b2", samplePkgB)] }

/-- A concrete oracle world in which every external call succeeds. -/
def sampleWorld : World :=
  { getenvGoroot := "/goroot",
    goEnvGoroot := .ok " /toolchain/goroot\n",
    getwd := .ok "/work",
    rel := fun _ _ => .ok "r",
    newResolver := fun _ _ => .ok (fun _ => .ok samplePkgProgram),
    fromArgs := fun _ _ => .ok [],
    load := fun _ _ => .ok sampleProg1,
    createSSA := fun _ => { tag := 1 },
    loadFromProgram := fun _ => .ok { tag := 2 },
    loadFromFiles := fun _ => .ok { tag := 3 },
    stdExcludeDirRegexps := [],
    govetRun := fun _ _ => .ok [] }

/-- A concrete linter context over the loaded program. -/
def sampleCtx1 : LintContext :=
  { pkgProgram := samplePkgProgram, cfg := sampleConfig,
    program := some sampleProg1, ssaProgram := none, loaderConfig := none,
    astCache := { tag := 0 }, notCompilingPackages := [] }

/-- A linter that needs both program loading and the SSA representation. -/
def sampleLinters : List LinterConfig :=
  [{ name := "megacheck", needsProgramLoading := true, needsSSARepresentation := true }]

/-- The outcome of `LoadContext sampleWorld sampleLinters sampleConfig`. -/
def sampleOutcome : LoadOutcome :=
  { envGoroot := "/goroot", buildDefaultGoroot := "/goroot",
    lintCtx :=
      { pkgProgram := samplePkgProgram, cfg := sampleConfig,
        program := some { created := [samplePkgA], imported := [("a2", samplePkgA)] },
        ssaProgram := some { tag := 1 },
        loaderConfig := some { build := { goroot := "/goroot" },
                               allowErrors := true,
                               parserMode := .parseComments },
        astCache := { tag := 2 },
        notCompilingPackages := [samplePkgB, samplePkgB] } }

/-- A concrete input list for the C6 witness: one absolute path and one
relative path. -/
def samplePaths : List String := ["/work/a", "b"]

/-- Witness for C1: the theorem applied to the concrete loaded context,
with the erroring package `samplePkgB`. -/
theorem c1_partition_health_witness :
    ∃ prog2, (separateNotCompilingPackages sampleCtx1).program = some prog2 ∧
      (samplePkgB.errors ≠ [] →
        ((samplePkgB ∈ sampleProg1.created ∨
            samplePkgB ∈ sampleProg1.imported.map Prod.snd) →
          samplePkgB ∈ (separateNotCompilingPackages sampleCtx1).notCompilingPackages) ∧
        samplePkgB ∉ prog2.created ∧ samplePkgB ∉ prog2.imported.map Prod.snd) ∧
      (samplePkgB.errors = [] →
        (samplePkgB ∈ sampleProg1.created → samplePkgB ∈ prog2.created) ∧
        (∀ k, (k, samplePkgB) ∈ sampleProg1.imported → (k, samplePkgB) ∈ prog2.imported) ∧
        samplePkgB ∉ (separateNotCompilingPackages sampleCtx1).notCompilingPackages) :=
  c1_partition_health sampleCtx1 sampleProg1 rfl rfl samplePkgB

/-- Witness for C9: the theorem applied to the concrete loaded context. -/
theorem c9_partition_conservation_witness :
    ∃ prog2, (separateNotCompilingPackages sampleCtx1).program = some prog2 ∧
      List.Perm
        (prog2.created ++ prog2.imported.map Prod.snd
          ++ (separateNotCompilingPackages sampleCtx1).notCompilingPackages)
        (sampleProg1.created ++ sampleProg1.imported.map Prod.snd
          ++ sampleCtx1.notCompilingPackages) ∧
      List.Sublist prog2.created sampleProg1.created ∧
      ∃ t, (separateNotCompilingPackages sampleCtx1).notCompilingPackages =
        sampleCtx1.notCompilingPackages ++ t :=
  c9_partition_conservation sampleCtx1 sampleProg1 rfl

/-- Witness for C3: with no enabled linters, nothing needs full import. -/
theorem c3_loader_skipped_witness :
    loadWholeAppIfNeeded sampleWorld [] sampleConfig.run samplePkgProgram =
      .ok (none, none) ∧
    ∀ out, LoadContext sampleWorld [] sampleConfig = .ok out →
      out.lintCtx.program = none ∧ out.lintCtx.loaderConfig = none :=
  c3_loader_skipped sampleWorld [] sampleConfig samplePkgProgram rfl

/-- Witness for C4: the theorem applied to the concrete successful run
(`LoadContext sampleWorld sampleLinters sampleConfig` evaluates to
`sampleOutcome` by `rfl`). -/
theorem c4_ssa_gating_witness :
    sampleOutcome.lintCtx.ssaProgram.isSome = true ↔
      (sampleOutcome.lintCtx.program.isSome = true ∧
        isSSAReprNeeded sampleLinters = true) :=
  c4_ssa_gating sampleWorld sampleLinters sampleConfig sampleOutcome rfl

/-- Witness for C5: the theorem applied to the concrete successful run. -/
theorem c5_parse_cache_witness :
    (sampleOutcome.lintCtx.program = none →
      sampleWorld.loadFromFiles
          (sampleOutcome.lintCtx.pkgProgram.files sampleConfig.run.analyzeTests) =
        .ok sampleOutcome.lintCtx.astCache) ∧
    (sampleOutcome.lintCtx.program.isSome = true →
      ∃ p, loadWholeAppIfNeeded sampleWorld sampleLinters sampleConfig.run
          sampleOutcome.lintCtx.pkgProgram =
          .ok (some p, sampleOutcome.lintCtx.loaderConfig) ∧
        sampleWorld.loadFromProgram p = .ok sampleOutcome.lintCtx.astCache) :=
  c5_parse_cache sampleWorld sampleLinters sampleConfig sampleOutcome rfl

/-- Witness for C6: the theorem applied to a concrete world and a mixed
absolute/relative path list. -/
theorem c6_normalizePaths_witness :
    (isError (normalizePaths sampleWorld samplePaths) = true ↔
      (isError sampleWorld.getwd = true ∨
        ∃ root, sampleWorld.getwd = .ok root ∧
          ∃ p ∈ samplePaths, isAbs p = true ∧
            isError (sampleWorld.rel root p) = true)) ∧
    (∀ root out, sampleWorld.getwd = .ok root →
      normalizePaths sampleWorld samplePaths = .ok out →
      out.length = samplePaths.length ∧
      ∀ i (h1 : i < samplePaths.length) (h2 : i < out.length),
        (isAbs (samplePaths.get ⟨i, h1⟩) = false →
          out.get ⟨i, h2⟩ = "./" ++ samplePaths.get ⟨i, h1⟩) ∧
        (∀ r, isAbs (samplePaths.get ⟨i, h1⟩) = true →
          sampleWorld.rel root (samplePaths.get ⟨i, h1⟩) = .ok r →
          out.get ⟨i, h2⟩ = "./" ++ r)) :=
  c6_normalizePaths sampleWorld samplePaths

/-- Witness for C7: the theorem applied to a concrete world and config. -/
theorem c7_goroot_witness :
    (sampleWorld.getenvGoroot ≠ "" →
      discoverGoRoot sampleWorld = .ok sampleWorld.getenvGoroot) ∧
    (sampleWorld.getenvGoroot = "" → ∀ outp, sampleWorld.goEnvGoroot = .ok outp →
      discoverGoRoot sampleWorld = .ok outp.trim) ∧
    (sampleWorld.getenvGoroot = "" → ∀ e, sampleWorld.goEnvGoroot = .error e →
      discoverGoRoot sampleWorld = .error ("can\x27t execute go env GOROOT: " ++ e)) ∧
    (∀ e, discoverGoRoot sampleWorld = .error e →
      LoadContext sampleWorld [] sampleConfig =
        .error ("can\x27t discover GOROOT: " ++ e)) ∧
    (∀ goroot out, discoverGoRoot sampleWorld = .ok goroot →
      LoadContext sampleWorld [] sampleConfig = .ok out →
      out.envGoroot = goroot ∧ out.buildDefaultGoroot = goroot) :=
  c7_goroot sampleWorld [] sampleConfig

/-- Witness for C10: the theorem applied to a concrete world and context. -/
theorem c10_govet_all_or_nothing_witness :
    (∀ l1 pkg l2 e,
      sampleCtx1.pkgProgram.packages = l1 ++ pkg :: l2 →
      (∀ q ∈ l1, ∃ issues,
        sampleWorld.govetRun (q.files sampleCtx1.cfg.run.analyzeTests)
          sampleCtx1.cfg.lintersSettings.govet.checkShadowing = .ok issues) →
      sampleWorld.govetRun (pkg.files sampleCtx1.cfg.run.analyzeTests)
        sampleCtx1.cfg.lintersSettings.govet.checkShadowing = .error e →
      Govet.Run sampleWorld sampleCtx1 = .error e) ∧
    ((∀ q ∈ sampleCtx1.pkgProgram.packages,
      sampleWorld.govetRun (q.files sampleCtx1.cfg.run.analyzeTests)
        sampleCtx1.cfg.lintersSettings.govet.checkShadowing = .ok []) →
      Govet.Run sampleWorld sampleCtx1 = .ok []) :=
  c10_govet_all_or_nothing sampleWorld sampleCtx1

end Aquarium
